import Mathlib

/-!
Verification of the TensorZero supervised-fine-tuning export pipeline
(recipes/supervised_fine_tuning: the Fireworks and OpenAI notebooks).

The notebooks' pipeline stages are shallowly embedded:
* the Content Block Normalizer (`render_message` in the Fireworks notebook,
  which concatenates text parts with a newline separator and takes the
  `DROP_INVALID_MESSAGES` policy flag),
* the output renderer (`render_output`),
* the Example Assembler (`sample_to_conversational_messages`),
* the Record Selector (the ClickHouse feedback-join query of the OpenAI
  notebook),
* the Dataset Partitioner (the train/validation split of the OpenAI
  notebook).

The minijinja template environment is consumed as a pure function
`render : String -> List (String x String) -> String`, and `json.dumps`
on tool-call arguments as a pure function `dumps : String -> String`,
matching the spec's treatment of the templating engine as an external
pure collaborator.
-/

/-- Variables passed to the template renderer (the kwargs of
`env.render_template`). -/
abbrev Vars : Type := List (String × String)

/-- The `value` of a `text` content block: either a plain string or a
structured mapping to be rendered via a template
(`if not isinstance(parsed_content, str)` in the source). -/
inductive TextValue
  | str (s : String)
  | structured (vars : Vars)
deriving DecidableEq

/-- A content block of an input message, the tagged variant the notebooks
dispatch on via `content_block["type"]`. `other` is the unknown-type
sentinel (any tag outside the recognized set). -/
inductive ContentBlock
  | text (value : TextValue)
  | rawText (value : String)
  | thought (t : String)
  | toolCall (id : String) (name : String) (arguments : String)
  | toolResult (id : String) (result : String)
  | other (tag : String)
deriving DecidableEq

/-- An input message: a role (`user`/`assistant`) plus ordered content
blocks. -/
structure Message where
  role : String
  content : List ContentBlock
deriving DecidableEq

/-- A rendered tool call, `{"function": {"arguments": json.dumps(...),
"name": ...}, "id": ..., "type": "function"}` in the source. -/
structure ToolCallOut where
  name : String
  argumentsJson : String
  id : String
deriving DecidableEq

/-- A provider-shaped message produced by the normalizer. `content` is
`none` when the source dict carries no `content` key, and likewise
`toolCallId`; `toolCalls` is `[]` when the dict carries no `tool_calls`
key. -/
structure NormMessage where
  role : String
  toolCallId : Option String
  content : Option String
  toolCalls : List ToolCallOut
deriving DecidableEq

/-- `f"<think>...</think>"` wrapping of a reasoning trace. -/
def thinkWrap (t : String) : String := "<think>" ++ t ++ "</think>"

/-- `content_block["type"] in ["text", "raw_text"]`. -/
def ContentBlock.isTextual : ContentBlock → Bool
  | .text _ => true
  | .rawText _ => true
  | _ => false

/-- The combined role message built after the block loop: content is the
newline join of the collected text parts when any were collected, and
`tool_calls` is attached when any were collected. -/
def mkRoleMessage (role : String) (content : List String) (toolCalls : List ToolCallOut) :
    NormMessage :=
  ⟨role, none, if content.isEmpty then none else some (String.intercalate "\n" content), toolCalls⟩

/-- The block loop of the Fireworks notebook's `render_message`, with the
three accumulators `content`, `tool_calls`, `rendered_messages` made
explicit. `d` is the `DROP_INVALID_MESSAGES` global. Returning `none`
models `return None` (drop the whole example). -/
def renderLoop (render : String → Vars → String) (dumps : String → String) (d : Bool)
    (role : String) :
    List ContentBlock → List String → List ToolCallOut → List NormMessage →
      Option (List NormMessage)
  | [], content, toolCalls, rendered =>
      if content.isEmpty && toolCalls.isEmpty then some rendered
      else some (rendered ++ [mkRoleMessage role content toolCalls])
  | b :: bs, content, toolCalls, rendered =>
      if !b.isTextual && d then none
      else
        match b with
        | .text (.str s) =>
            renderLoop render dumps d role bs (content ++ [s]) toolCalls rendered
        | .text (.structured v) =>
            renderLoop render dumps d role bs (content ++ [render role v]) toolCalls rendered
        | .rawText s =>
            renderLoop render dumps d role bs (content ++ [s]) toolCalls rendered
        | .thought t =>
            renderLoop render dumps d role bs (content ++ [thinkWrap t]) toolCalls rendered
        | .toolCall id name args =>
            if role == "assistant" && !d then
              renderLoop render dumps d role bs content (toolCalls ++ [⟨name, dumps args, id⟩])
                rendered
            else none
        | .toolResult id result =>
            if role == "user" && !d then
              renderLoop render dumps d role bs content toolCalls
                (rendered ++ [⟨"tool", some id, some result, []⟩])
            else none
        | .other _ => none

/-- `render_message` of the Fireworks notebook: normalize one input
message into zero-or-more provider messages, or `None` (drop). -/
def render_message (render : String → Vars → String) (dumps : String → String) (d : Bool)
    (msg : Message) : Option (List NormMessage) :=
  renderLoop render dumps d msg.role msg.content [] [] []

/-- The text a block contributes to the combined content, if any:
`text` (rendered when structured), `raw_text`, and `thought` (wrapped). -/
def textPart (render : String → Vars → String) (role : String) : ContentBlock → Option String
  | .text (.str s) => some s
  | .text (.structured v) => some (render role v)
  | .rawText s => some s
  | .thought t => some (thinkWrap t)
  | _ => none

/-- The standalone `tool`-role message a block contributes, if any: a
`tool_result` in a `user` message when the drop-invalid policy is off. -/
def toolMsgPart (role : String) (d : Bool) : ContentBlock → Option NormMessage
  | .toolResult id result =>
      if role == "user" && !d then some ⟨"tool", some id, some result, []⟩ else none
  | _ => none

/-- The tool-call entry a block contributes, if any: a `tool_call` in an
`assistant` message when the drop-invalid policy is off. -/
def toolCallPart (dumps : String → String) (role : String) (d : Bool) :
    ContentBlock → Option ToolCallOut
  | .toolCall id name args =>
      if role == "assistant" && !d then some ⟨name, dumps args, id⟩ else none
  | _ => none

/-- Whether processing this block makes `render_message` return `None`:
with drop-invalid on, everything but `text`/`raw_text`; with it off,
unknown tags and tool blocks on the wrong role. -/
def blockDrops (role : String) (d : Bool) : ContentBlock → Bool
  | .text _ => false
  | .rawText _ => false
  | .thought _ => d
  | .toolCall _ _ _ => d || !(role == "assistant")
  | .toolResult _ _ => d || !(role == "user")
  | .other _ => true

/-- The trailing combined message: present iff some text or tool call was
collected. -/
def tailPart (role : String) (texts : List String) (tcs : List ToolCallOut) :
    List NormMessage :=
  if texts.isEmpty && tcs.isEmpty then [] else [mkRoleMessage role texts tcs]

theorem renderLoop_eq (render : String → Vars → String) (dumps : String → String) (d : Bool)
    (role : String) :
    ∀ (bs : List ContentBlock) (content : List String) (toolCalls : List ToolCallOut)
      (rendered : List NormMessage),
      renderLoop render dumps d role bs content toolCalls rendered =
        if bs.any (blockDrops role d) then none
        else some (rendered ++ bs.filterMap (toolMsgPart role d) ++
          tailPart role (content ++ bs.filterMap (textPart render role))
            (toolCalls ++ bs.filterMap (toolCallPart dumps role d))) := by
  intro bs
  induction bs with
  | nil =>
      intro content toolCalls rendered
      simp only [renderLoop, List.any_nil, List.filterMap_nil, List.append_nil, tailPart,
        Bool.false_eq_true, if_false]
      by_cases hc : content.isEmpty <;> by_cases ht : toolCalls.isEmpty <;>
        simp [hc, ht]
  | cons b bs ih =>
      intro content toolCalls rendered
      cases b with
      | text v =>
          cases v with
          | str s =>
              simp only [renderLoop, ContentBlock.isTextual, Bool.not_true, Bool.false_and,
                Bool.false_eq_true, if_false, ih, List.any_cons, blockDrops, Bool.false_or,
                List.filterMap_cons, textPart, toolMsgPart, toolCallPart, List.append_assoc,
                List.singleton_append]
          | structured v =>
              simp only [renderLoop, ContentBlock.isTextual, Bool.not_true, Bool.false_and,
                Bool.false_eq_true, if_false, ih, List.any_cons, blockDrops, Bool.false_or,
                List.filterMap_cons, textPart, toolMsgPart, toolCallPart, List.append_assoc,
                List.singleton_append]
      | rawText s =>
          simp only [renderLoop, ContentBlock.isTextual, Bool.not_true, Bool.false_and,
            Bool.false_eq_true, if_false, ih, List.any_cons, blockDrops, Bool.false_or,
            List.filterMap_cons, textPart, toolMsgPart, toolCallPart, List.append_assoc,
            List.singleton_append]
      | thought t =>
          cases d with
          | true =>
              simp [renderLoop, ContentBlock.isTextual, List.any_cons, blockDrops]
          | false =>
              simp only [renderLoop, ContentBlock.isTextual, Bool.not_false, Bool.and_false,
                Bool.false_eq_true, if_false, ih, List.any_cons, blockDrops, Bool.false_or,
                List.filterMap_cons, textPart, toolMsgPart, toolCallPart, List.append_assoc,
                List.singleton_append]
      | toolCall id name args =>
          cases d with
          | true =>
              simp [renderLoop, ContentBlock.isTextual, List.any_cons, blockDrops]
          | false =>
              by_cases hr : role == "assistant"
              · simp only [renderLoop, ContentBlock.isTextual, Bool.not_false, Bool.and_false,
                  Bool.false_eq_true, if_false, hr, Bool.true_and, Bool.not_false, if_true,
                  ih, List.any_cons, blockDrops, Bool.not_true, Bool.false_or, Bool.or_false,
                  List.filterMap_cons, textPart, toolMsgPart, toolCallPart, List.append_assoc,
                  List.singleton_append]
              · simp [renderLoop, ContentBlock.isTextual, hr, List.any_cons, blockDrops]
      | toolResult id result =>
          cases d with
          | true =>
              simp [renderLoop, ContentBlock.isTextual, List.any_cons, blockDrops]
          | false =>
              by_cases hr : role == "user"
              · simp only [renderLoop, ContentBlock.isTextual, Bool.not_false, Bool.and_false,
                  Bool.false_eq_true, if_false, hr, Bool.true_and, Bool.not_false, if_true,
                  ih, List.any_cons, blockDrops, Bool.not_true, Bool.false_or, Bool.or_false,
                  List.filterMap_cons, textPart, toolMsgPart, toolCallPart, List.append_assoc,
                  List.singleton_append]
              · simp [renderLoop, ContentBlock.isTextual, hr, List.any_cons, blockDrops]
      | other tag =>
          cases d with
          | true => simp [renderLoop, ContentBlock.isTextual, List.any_cons, blockDrops]
          | false => simp [renderLoop, ContentBlock.isTextual, List.any_cons, blockDrops]

/-- Closed-form characterization of `render_message`: it drops exactly
when some block drops, and otherwise emits the standalone tool messages
(in block order) followed by the single combined role message. -/
theorem render_message_eq (render : String → Vars → String) (dumps : String → String)
    (d : Bool) (msg : Message) :
    render_message render dumps d msg =
      if msg.content.any (blockDrops msg.role d) then none
      else some (msg.content.filterMap (toolMsgPart msg.role d) ++
        tailPart msg.role (msg.content.filterMap (textPart render msg.role))
          (msg.content.filterMap (toolCallPart dumps msg.role d))) := by
  simp [render_message, renderLoop_eq]

/-- A concrete template renderer used to instantiate witnesses. -/
def render0 : String → Vars → String := fun _ _ => ""

/-- A concrete argument serializer used to instantiate witnesses. -/
def dumps0 : String → String := fun s => s

/-- C2 counterexample: with the drop-invalid policy enabled
(`DROP_INVALID_MESSAGES = True`, the Fireworks notebook's default), a
message whose only block is a `Thought` is dropped by `render_message`,
contradicting the claim that a `Thought` block never causes a drop. -/
theorem c2_counterexample :
    render_message render0 dumps0 true ⟨"user", [ContentBlock.thought "hello"]⟩ = none := rfl

/-- C2 (amended): a `Thought` block causes the example to be dropped when
the drop-invalid policy is enabled; when it is disabled, a `Thought` block
never causes a drop and is rendered as the text `<think>` + text +
`</think>` joined into the message's combined content. -/
theorem c2_thought_policy (render : String → Vars → String) (dumps : String → String)
    (role : String) (pre post : List ContentBlock) (t : String) :
    render_message render dumps true ⟨role, pre ++ ContentBlock.thought t :: post⟩ = none
    ∧ ((pre ++ post).any (blockDrops role false) = false →
        render_message render dumps false ⟨role, pre ++ ContentBlock.thought t :: post⟩ =
          some ((pre ++ post).filterMap (toolMsgPart role false) ++
            [mkRoleMessage role
              (pre.filterMap (textPart render role) ++ thinkWrap t ::
                post.filterMap (textPart render role))
              ((pre ++ post).filterMap (toolCallPart dumps role false))])) := by
  constructor
  · rw [render_message_eq]
    simp [List.any_append, blockDrops]
  · intro h
    rw [render_message_eq]
    simp only [List.any_append, List.any_cons, blockDrops, Bool.or_false] at h ⊢
    rw [Bool.or_eq_false_iff] at h
    simp only [h.1, h.2, Bool.false_or, Bool.or_false, Bool.false_eq_true, if_false,
      List.filterMap_append, List.filterMap_cons, textPart, toolMsgPart, toolCallPart,
      tailPart, List.nil_append]
    have : (pre.filterMap (textPart render role) ++ thinkWrap t ::
        post.filterMap (textPart render role)).isEmpty = false := by
      simp [List.isEmpty_iff]
    simp [this]

/-- C2 witness: instantiating the amended theorem at a lone thought block
with the drop-invalid policy disabled. -/
theorem c2_thought_policy_witness :
    (((([] : List ContentBlock)) ++ []).any (blockDrops "user" false) = false)
    ∧ render_message render0 dumps0 false ⟨"user", [] ++ ContentBlock.thought "hi" :: []⟩ =
        some ((([] : List ContentBlock) ++ []).filterMap (toolMsgPart "user" false) ++
          [mkRoleMessage "user"
            (([] : List ContentBlock).filterMap (textPart render0 "user") ++ thinkWrap "hi" ::
              ([] : List ContentBlock).filterMap (textPart render0 "user"))
            ((([] : List ContentBlock) ++ []).filterMap (toolCallPart dumps0 "user" false))]) :=
  ⟨rfl, (c2_thought_policy render0 dumps0 "user" [] [] "hi").2 rfl⟩

/-- C4: whenever a user message normalizes successfully with tool results
permitted (drop-invalid disabled), the emitted sequence is exactly the
standalone `tool`-role messages derived from its `tool_result` blocks, in
block order, followed by the at-most-one combined `user` message — so
every tool-result message precedes the combined user content regardless
of where the `tool_result` block sat among the message's blocks. -/
theorem c4_tool_result_first (render : String → Vars → String) (dumps : String → String)
    (blocks : List ContentBlock) (l : List NormMessage)
    (h : render_message render dumps false ⟨"user", blocks⟩ = some l) :
    l = blocks.filterMap (toolMsgPart "user" false) ++
      tailPart "user" (blocks.filterMap (textPart render "user"))
        (blocks.filterMap (toolCallPart dumps "user" false)) := by
  rw [render_message_eq] at h
  by_cases hd : blocks.any (blockDrops "user" false) = true
  · rw [if_pos hd] at h
    exact absurd h (by simp)
  · rw [if_neg hd] at h
    exact (Option.some_inj.mp h).symm

/-- C4 witness: the claim's example — `user` content
`[raw_text "Hi", tool_result "t1" "42"]` yields the tool message for
"42" followed by the user message "Hi". -/
theorem c4_tool_result_first_witness :
    render_message render0 dumps0 false
        ⟨"user", [ContentBlock.rawText "Hi", ContentBlock.toolResult "t1" "42"]⟩ =
      some [⟨"tool", some "t1", some "42", []⟩, ⟨"user", none, some "Hi", []⟩]
    ∧ ([⟨"tool", some "t1", some "42", []⟩, ⟨"user", none, some "Hi", []⟩] : List NormMessage) =
        [ContentBlock.rawText "Hi", ContentBlock.toolResult "t1" "42"].filterMap
            (toolMsgPart "user" false) ++
          tailPart "user"
            ([ContentBlock.rawText "Hi", ContentBlock.toolResult "t1" "42"].filterMap
              (textPart render0 "user"))
            ([ContentBlock.rawText "Hi", ContentBlock.toolResult "t1" "42"].filterMap
              (toolCallPart dumps0 "user" false)) :=
  ⟨by decide, c4_tool_result_first render0 dumps0 _ _ (by decide)⟩

/-- C8: when a message contributes at least two text-bearing blocks
(`text`, `raw_text`, `thought`), the combined message (the last emitted
message) carries as content the newline-joined concatenation of the
blocks' rendered texts in source order. -/
theorem c8_text_concat (render : String → Vars → String) (dumps : String → String) (d : Bool)
    (msg : Message) (l : List NormMessage)
    (h : render_message render dumps d msg = some l)
    (h2 : 2 ≤ (msg.content.filterMap (textPart render msg.role)).length) :
    l.getLast? = some (mkRoleMessage msg.role (msg.content.filterMap (textPart render msg.role))
        (msg.content.filterMap (toolCallPart dumps msg.role d)))
    ∧ (mkRoleMessage msg.role (msg.content.filterMap (textPart render msg.role))
        (msg.content.filterMap (toolCallPart dumps msg.role d))).content =
      some (String.intercalate "\n" (msg.content.filterMap (textPart render msg.role))) := by
  have hne : (msg.content.filterMap (textPart render msg.role)).isEmpty = false := by
    cases hl : msg.content.filterMap (textPart render msg.role) with
    | nil => rw [hl] at h2; simp at h2
    | cons a as => simp
  rw [render_message_eq] at h
  by_cases hd : msg.content.any (blockDrops msg.role d) = true
  · rw [if_pos hd] at h
    exact absurd h (by simp)
  · rw [if_neg hd] at h
    have h' := (Option.some_inj.mp h).symm
    subst h'
    constructor
    · rw [tailPart]
      simp [hne, List.getLast?_concat]
    · rw [mkRoleMessage]
      simp [hne]

/-- C8 witness: two raw-text blocks "a" and "b" concatenate to
"a" + newline + "b". -/
theorem c8_text_concat_witness :
    render_message render0 dumps0 false ⟨"user", [ContentBlock.rawText "a", ContentBlock.rawText "b"]⟩ =
      some [⟨"user", none, some "a\nb", []⟩]
    ∧ 2 ≤ (([ContentBlock.rawText "a", ContentBlock.rawText "b"] : List ContentBlock).filterMap
        (textPart render0 "user")).length
    ∧ ([⟨"user", none, some "a\nb", []⟩] : List NormMessage).getLast? =
        some (mkRoleMessage "user"
          (([ContentBlock.rawText "a", ContentBlock.rawText "b"] : List ContentBlock).filterMap
            (textPart render0 "user"))
          (([ContentBlock.rawText "a", ContentBlock.rawText "b"] : List ContentBlock).filterMap
            (toolCallPart dumps0 "user" false))) :=
  ⟨by decide, by decide,
    (c8_text_concat render0 dumps0 false ⟨"user", [ContentBlock.rawText "a", ContentBlock.rawText "b"]⟩
      [⟨"user", none, some "a\nb", []⟩] (by decide) (by decide)).1⟩

/-- A block of a chat-typed function's stored output (`content_block` in
`render_output`): output text blocks carry a `text` field directly. -/
inductive OutputBlock
  | text (t : String)
  | thought (t : String)
  | toolCall (id : String) (name : String) (arguments : String)
  | other (tag : String)
deriving DecidableEq

/-- The parsed output payload (`json.loads(sample["value"])`): a JSON
object (with its string fields, for JSON-typed functions) or a list of
content blocks (for chat-typed functions). -/
inductive OutputData
  | jsonObj (fields : List (String × String))
  | chatBlocks (blocks : List OutputBlock)
deriving DecidableEq

/-- `config["functions"][FUNCTION_NAME]["type"]`, already validated to be
`chat` or `json` by the inference-table lookup. -/
inductive FunctionType
  | chat
  | json
deriving DecidableEq

/-- Python exceptions the pipeline can raise (as opposed to the `None`
drop signal): an unbound global name, a missing dict key, a wrongly
typed payload. -/
inductive PyErr
  | nameError
  | keyError
  | typeError
deriving DecidableEq

def OutputBlock.isText : OutputBlock → Bool
  | .text _ => true
  | _ => false

/-- The block loop of the Fireworks notebook's `render_output` for
chat-typed functions, with the `content` and `tool_calls` accumulators
explicit; `none` models the `return None` drop signal. -/
def renderOutputLoop (dumps : String → String) (d : Bool) :
    List OutputBlock → List String → List ToolCallOut → Option NormMessage
  | [], content, toolCalls =>
      some ⟨"assistant", none,
        if content.isEmpty then none else some (String.intercalate "\n" content), toolCalls⟩
  | b :: bs, content, toolCalls =>
      if !b.isText && d then none
      else
        match b with
        | .text t => renderOutputLoop dumps d bs (content ++ [t]) toolCalls
        | .thought t => renderOutputLoop dumps d bs (content ++ [thinkWrap t]) toolCalls
        | .toolCall id name args =>
            if !d then renderOutputLoop dumps d bs content (toolCalls ++ [⟨name, dumps args, id⟩])
            else none
        | .other _ => none

/-- `render_output` of the Fireworks notebook. For JSON-typed functions it
returns `{"role": "assistant", "content": output["raw"]}` with no
per-block processing (a missing `raw` key would raise `KeyError`, and a
non-object payload `TypeError`); for chat-typed functions it runs the
per-block loop, where `none` signals dropping the example. -/
def render_output (dumps : String → String) (ftype : FunctionType) (d : Bool)
    (output : OutputData) : Except PyErr (Option NormMessage) :=
  match ftype, output with
  | .json, .jsonObj fields =>
      match fields.lookup "raw" with
      | some raw => .ok (some ⟨"assistant", none, some raw, []⟩)
      | none => .error .keyError
  | .json, .chatBlocks _ => .error .typeError
  | .chat, .chatBlocks blocks => .ok (renderOutputLoop dumps d blocks [] [])
  | .chat, .jsonObj _ => .error .typeError

/-- C10: for a JSON-typed function whose parsed output object contains a
`raw` field, output rendering always succeeds with
`{role: assistant, content: raw}` and never signals drop, for either
drop-invalid policy. -/
theorem c10_json_output (dumps : String → String) (d : Bool)
    (fields : List (String × String)) (raw : String)
    (h : fields.lookup "raw" = some raw) :
    render_output dumps FunctionType.json d (OutputData.jsonObj fields) =
      Except.ok (some ⟨"assistant", none, some raw, []⟩) := by
  simp [render_output, h]

/-- C10 witness: a concrete JSON output object with a `raw` field. -/
theorem c10_json_output_witness :
    ([("raw", "out")] : List (String × String)).lookup "raw" = some "out"
    ∧ render_output dumps0 FunctionType.json true (OutputData.jsonObj [("raw", "out")]) =
        Except.ok (some ⟨"assistant", none, some "out", []⟩) :=
  ⟨rfl, c10_json_output dumps0 true [("raw", "out")] "out" rfl⟩

/-- The parsed `function_input` of a sample: optional structured system
data (`function_input.get("system", {})`) plus the input messages. -/
structure FunctionInput where
  system : Vars
  messages : List Message
deriving DecidableEq

/-- The system-message step of `sample_to_conversational_messages`.
`systemTemplate` models the notebook global `system_template_path`, which
is only bound when the variant configures a `system_template`: when it is
unbound (`none`), evaluating `if len(system) > 0 or system_template_path`
raises `NameError` — either the `or`'s second operand or the inner
`if system_template_path` evaluates the unbound name — so the raw
pass-through `else` branch in the source is unreachable. When bound, the
condition is truthy and the system template is always rendered. -/
def resolve_system (render : String → Vars → String) (systemTemplate : Option Unit)
    (system : Vars) : Except PyErr (List NormMessage) :=
  match systemTemplate with
  | none => .error .nameError
  | some _ => .ok [⟨"system", none, some (render "system" system), []⟩]

/-- The input-message loop of the assembler: render each message in source
order, concatenating the results; `none` as soon as any message drops. -/
def renderInputMessages (render : String → Vars → String) (dumps : String → String)
    (d : Bool) : List Message → Option (List NormMessage)
  | [] => some []
  | m :: ms =>
      match render_message render dumps d m with
      | none => none
      | some l =>
          match renderInputMessages render dumps d ms with
          | none => none
          | some rest => some (l ++ rest)

/-- `sample_to_conversational_messages` of the Fireworks notebook: resolve
the system message, normalize the input messages in order, render the
output, and either drop the whole example (`.ok none`, the notebook's
`return None`) or emit the full message list. -/
def sample_to_conversational_messages (render : String → Vars → String)
    (dumps : String → String) (systemTemplate : Option Unit) (d : Bool)
    (ftype : FunctionType) (input : FunctionInput) (output : OutputData) :
    Except PyErr (Option (List NormMessage)) :=
  match resolve_system render systemTemplate input.system with
  | .error e => .error e
  | .ok sysMsgs =>
      match renderInputMessages render dumps d input.messages with
      | none => .ok none
      | some inputMsgs =>
          match render_output dumps ftype d output with
          | .error e => .error e
          | .ok none => .ok none
          | .ok (some outMsg) => .ok (some (sysMsgs ++ inputMsgs ++ [outMsg]))

theorem renderInputMessages_none_of_mem (render : String → Vars → String)
    (dumps : String → String) (d : Bool) :
    ∀ (ms : List Message), (∃ m ∈ ms, render_message render dumps d m = none) →
      renderInputMessages render dumps d ms = none := by
  intro ms
  induction ms with
  | nil => rintro ⟨m, hm, _⟩; exact absurd hm (List.not_mem_nil m)
  | cons a as ih =>
      rintro ⟨m, hm, hnone⟩
      rcases List.mem_cons.mp hm with h1 | h2
      · subst h1
        simp [renderInputMessages, hnone]
      · cases ha : render_message render dumps d a with
        | none => simp [renderInputMessages, ha]
        | some l => simp [renderInputMessages, ha, ih ⟨m, h2, hnone⟩]

/-- C3: example assembly is all-or-nothing. With a configured system
template, if any input message drops, or the output drops, the assembler
returns no example at all (`.ok none`, never a partial list); when every
input message and the output render, it returns exactly the system
message followed by the normalized inputs in source order followed by the
normalized output. -/
theorem c3_all_or_nothing (render : String → Vars → String) (dumps : String → String)
    (d : Bool) (ftype : FunctionType) (input : FunctionInput) (output : OutputData) :
    ((∃ m ∈ input.messages, render_message render dumps d m = none) →
      sample_to_conversational_messages render dumps (some ()) d ftype input output = .ok none)
    ∧ (render_output dumps ftype d output = .ok none →
      sample_to_conversational_messages render dumps (some ()) d ftype input output = .ok none)
    ∧ (∀ (inputMsgs : List NormMessage) (outMsg : NormMessage),
        renderInputMessages render dumps d input.messages = some inputMsgs →
        render_output dumps ftype d output = .ok (some outMsg) →
        sample_to_conversational_messages render dumps (some ()) d ftype input output =
          .ok (some (⟨"system", none, some (render "system" input.system), []⟩ ::
            (inputMsgs ++ [outMsg])))) := by
  refine ⟨?_, ?_, ?_⟩
  · intro hdrop
    have h := renderInputMessages_none_of_mem render dumps d input.messages hdrop
    simp [sample_to_conversational_messages, resolve_system, h]
  · intro hout
    cases hin : renderInputMessages render dumps d input.messages with
    | none => simp [sample_to_conversational_messages, resolve_system, hin]
    | some l => simp [sample_to_conversational_messages, resolve_system, hin, hout]
  · intro inputMsgs outMsg hin hout
    simp [sample_to_conversational_messages, resolve_system, hin, hout]

/-- C3 witness: a row whose single input message carries an unknown block
tag is dropped whole. -/
theorem c3_all_or_nothing_witness :
    (∃ m ∈ [Message.mk "user" [ContentBlock.other "image"]],
      render_message render0 dumps0 true m = none)
    ∧ sample_to_conversational_messages render0 dumps0 (some ()) true FunctionType.chat
        ⟨[], [Message.mk "user" [ContentBlock.other "image"]]⟩
        (OutputData.chatBlocks [OutputBlock.text "ok"]) = .ok none :=
  ⟨⟨Message.mk "user" [ContentBlock.other "image"], by simp, rfl⟩,
    (c3_all_or_nothing render0 dumps0 true FunctionType.chat
        ⟨[], [Message.mk "user" [ContentBlock.other "image"]]⟩
        (OutputData.chatBlocks [OutputBlock.text "ok"])).1
      ⟨Message.mk "user" [ContentBlock.other "image"], by simp, rfl⟩⟩

/-- C6 (code bug): when the variant configures no system template the
global `system_template_path` is unbound, so the system-message step
raises `NameError` instead of omitting the system message (empty system
data) or passing the raw system data through (non-empty system data); the
claimed no-template behaviors are dead code. With a template configured,
a system message is always prepended (rendered via the template). -/
theorem c6_system_name_error :
    resolve_system render0 none [] = Except.error PyErr.nameError
    ∧ resolve_system render0 none [("assistant_name", "Alfred")] = Except.error PyErr.nameError
    ∧ resolve_system render0 (some ()) [] =
        Except.ok [⟨"system", none, some (render0 "system" []), []⟩] :=
  ⟨rfl, rfl, rfl⟩

/-- A row of the feedback table (`FloatMetricFeedback` /
`BooleanMetricFeedback`): the joined entity key `target_id`, the metric
name, the feedback value and its timestamp. -/
structure FeedbackRow where
  target_id : ℕ
  metric_name : String
  value : ℚ
  timestamp : ℕ
deriving DecidableEq

/-- A row of the inference table (`ChatInference` / `JsonInference`),
restricted to the columns the query touches. -/
structure InferenceRow where
  id : ℕ
  episode_id : ℕ
  function_name : String
  variant_name : String
  input : String
  output : String
deriving DecidableEq

/-- A row returned by the Record Selector's query:
`i.variant_name, i.input, i.output, f.value, i.episode_id`. -/
structure SelectedRow where
  variant_name : String
  input : String
  output : String
  value : ℚ
  episode_id : ℕ
deriving DecidableEq

/-- `metric["level"]` determines the inference-side join key:
`episode -> episode_id`, `inference -> id`. -/
inductive JoinKey
  | episode
  | inference
deriving DecidableEq

def joinVal : JoinKey → InferenceRow → ℕ
  | .episode, i => i.episode_id
  | .inference, i => i.id

/-- The comparison operator: `>=` when the metric optimizes `max`, `<=`
when it optimizes `min`. -/
inductive Cmp
  | ge
  | le
deriving DecidableEq

/-- `value {comparison_operator} threshold`. -/
def cmpHolds : Cmp → ℚ → ℚ → Bool
  | .ge, v, t => decide (t ≤ v)
  | .le, v, t => decide (v ≤ t)

/-- One step of resolving `ROW_NUMBER() OVER (PARTITION BY target_id
ORDER BY timestamp DESC) = 1`: keep the row with the larger timestamp,
preferring the earlier row on ties (a deterministic tie-break standing in
for ClickHouse's unspecified one). -/
def mrStep (acc : Option FeedbackRow) (f : FeedbackRow) : Option FeedbackRow :=
  match acc with
  | none => some f
  | some b => if b.timestamp < f.timestamp then some f else some b

/-- The `rn = 1` row of a partition: the first row attaining the maximal
timestamp. -/
def mostRecent (l : List FeedbackRow) : Option FeedbackRow :=
  l.foldl mrStep none

/-- `f` is the first row of `l` attaining the maximal timestamp. -/
def IsFirstMax (l : List FeedbackRow) (f : FeedbackRow) : Prop :=
  ∃ l₁ l₂, l = l₁ ++ f :: l₂ ∧ (∀ g ∈ l₁, g.timestamp < f.timestamp) ∧
    (∀ g ∈ l₂, g.timestamp ≤ f.timestamp)

theorem foldl_mrStep_isSome (l : List FeedbackRow) :
    ∀ (b : FeedbackRow), (l.foldl mrStep (some b)).isSome = true := by
  induction l with
  | nil => intro b; rfl
  | cons x xs ih =>
      intro b
      simp only [List.foldl_cons, mrStep]
      split
      · exact ih x
      · exact ih b

theorem mostRecent_eq_none (l : List FeedbackRow) (h : mostRecent l = none) : l = [] := by
  cases l with
  | nil => rfl
  | cons a as =>
      exfalso
      have hs := foldl_mrStep_isSome as a
      rw [mostRecent, List.foldl_cons] at h
      have : mrStep none a = some a := rfl
      rw [this] at h
      rw [h] at hs
      simp at hs

theorem mostRecent_isFirstMax (l : List FeedbackRow) (f : FeedbackRow)
    (h : mostRecent l = some f) : IsFirstMax l f := by
  induction l using List.reverseRecOn generalizing f with
  | nil => simp [mostRecent] at h
  | append_singleton l x ih =>
      rw [mostRecent, List.foldl_append, List.foldl_cons, List.foldl_nil] at h
      cases hl : mostRecent l with
      | none =>
          have : l = [] := mostRecent_eq_none l hl
          subst this
          simp only [mostRecent, List.foldl_nil] at h
          have : mrStep none x = some x := rfl
          rw [this] at h
          cases h
          exact ⟨[], [], rfl, by simp, by simp⟩
      | some c =>
          rw [mostRecent] at hl
          rw [hl] at h
          rcases ih c hl with ⟨l₁, l₂, heq, h₁, h₂⟩
          by_cases hts : c.timestamp < x.timestamp
          · rw [mrStep, if_pos hts] at h
            cases h
            refine ⟨l, [], rfl, ?_, by simp⟩
            intro g hg
            rw [heq] at hg
            rcases List.mem_append.mp hg with hg1 | hg2
            · exact lt_trans (h₁ g hg1) hts
            · rcases List.mem_cons.mp hg2 with hgc | hgl2
              · rw [hgc]; exact hts
              · exact lt_of_le_of_lt (h₂ g hgl2) hts
          · rw [mrStep, if_neg hts] at h
            cases h
            refine ⟨l₁, l₂ ++ [x], by rw [heq]; simp, h₁, ?_⟩
            intro g hg
            rcases List.mem_append.mp hg with hg1 | hg2
            · exact h₂ g hg1
            · rcases List.mem_singleton.mp hg2 with rfl
              exact le_of_not_lt hts

theorem mostRecent_mem (l : List FeedbackRow) (f : FeedbackRow)
    (h : mostRecent l = some f) : f ∈ l := by
  rcases mostRecent_isFirstMax l f h with ⟨l₁, l₂, heq, _, _⟩
  rw [heq]
  exact List.mem_append.mpr (Or.inr (List.mem_cons_self f l₂))

theorem foldl_mrStep_max (l : List FeedbackRow) :
    ∀ (b : FeedbackRow), (∀ g ∈ l, g.timestamp ≤ b.timestamp) →
      l.foldl mrStep (some b) = some b := by
  induction l with
  | nil => intro b _; rfl
  | cons x xs ih =>
      intro b hb
      have hx : ¬ b.timestamp < x.timestamp :=
        not_lt_of_le (hb x (List.mem_cons_self x xs))
      simp only [List.foldl_cons, mrStep, if_neg hx]
      exact ih b (fun g hg => hb g (List.mem_cons_of_mem x hg))

theorem isFirstMax_mostRecent (l : List FeedbackRow) (f : FeedbackRow)
    (h : IsFirstMax l f) : mostRecent l = some f := by
  rcases h with ⟨l₁, l₂, heq, h₁, h₂⟩
  subst heq
  rw [mostRecent, List.foldl_append, List.foldl_cons]
  cases hl : mostRecent l₁ with
  | none =>
      have : l₁ = [] := mostRecent_eq_none l₁ hl
      subst this
      simp only [List.foldl_nil]
      have : mrStep none f = some f := rfl
      rw [this]
      exact foldl_mrStep_max l₂ f h₂
  | some c =>
      rw [mostRecent] at hl
      rw [hl]
      have hc : c ∈ l₁ := mostRecent_mem l₁ c hl
      have : c.timestamp < f.timestamp := h₁ c hc
      rw [mrStep, if_pos this]
      exact foldl_mrStep_max l₂ f h₂

/-- The `rn = 1` selection (first-attained maximal timestamp) is exactly
what the `mostRecent` fold computes. -/
theorem mostRecent_eq_some_iff (l : List FeedbackRow) (f : FeedbackRow) :
    mostRecent l = some f ↔ IsFirstMax l f :=
  ⟨mostRecent_isFirstMax l f, isFirstMax_mostRecent l f⟩

/-- The subquery's per-entity candidate set: feedback rows for the metric
that pass the threshold filter and join to the given entity key. The
`WHERE metric_name = ... AND value {cmp} threshold` clause applies before
`ROW_NUMBER` is computed. -/
def passingFeedback (fb : List FeedbackRow) (metric : String) (c : Cmp) (t : ℚ)
    (key : ℕ) : List FeedbackRow :=
  fb.filter (fun f => f.metric_name == metric && cmpHolds c f.value t && f.target_id == key)

/-- `SELECT i.variant_name, i.input, i.output, f.value, i.episode_id`. -/
def mkSelected (i : InferenceRow) (f : FeedbackRow) : SelectedRow :=
  ⟨i.variant_name, i.input, i.output, f.value, i.episode_id⟩

/-- The Record Selector's query without the `LIMIT` clause: inner-join
each inference of the function with the `rn = 1` row of its
threshold-filtered feedback partition. -/
def select_rows_unlimited (inf : List InferenceRow) (fb : List FeedbackRow)
    (fname metric : String) (c : Cmp) (t : ℚ) (jk : JoinKey) : List SelectedRow :=
  (inf.filter (fun i => i.function_name == fname)).filterMap (fun i =>
    (mostRecent (passingFeedback fb metric c t (joinVal jk i))).map (mkSelected i))

/-- The Record Selector's query of the OpenAI notebook, `LIMIT
%(max_samples)s` included. -/
def select_rows (inf : List InferenceRow) (fb : List FeedbackRow) (fname metric : String)
    (c : Cmp) (t : ℚ) (jk : JoinKey) (limit : ℕ) : List SelectedRow :=
  (select_rows_unlimited inf fb fname metric c t jk).take limit

/-- The Record Selector as the claim states it, written from the spec's
words for comparison with `select_rows`: resolve the most-recent feedback
for the metric over ALL of the entity's feedback, and only then test it
against the threshold. -/
def claimed_select_rows (inf : List InferenceRow) (fb : List FeedbackRow)
    (fname metric : String) (c : Cmp) (t : ℚ) (jk : JoinKey) (limit : ℕ) :
    List SelectedRow :=
  ((inf.filter (fun i => i.function_name == fname)).filterMap (fun i =>
    match mostRecent (fb.filter (fun f =>
        f.metric_name == metric && f.target_id == joinVal jk i)) with
    | none => none
    | some f => if cmpHolds c f.value t then some (mkSelected i f) else none)).take limit

def exInference : InferenceRow := ⟨1, 7, "extract_entities", "baseline", "in", "out"⟩

/-- Two feedback rows for the same inference: the most recent (timestamp
2) fails the threshold 1, the older (timestamp 1) passes it. -/
def exFeedback : List FeedbackRow :=
  [⟨1, "exact_match", 0, 2⟩, ⟨1, "exact_match", 2, 1⟩]

/-- C1 counterexample: the query filters by the threshold inside the
subquery before ranking by timestamp, so an inference whose most recent
feedback fails the threshold is still returned (joined to the older
passing value) — whereas the claim says such a row is excluded. -/
theorem c1_counterexample :
    select_rows [exInference] exFeedback "extract_entities" "exact_match" Cmp.ge 1
        JoinKey.inference 100 = [⟨"baseline", "in", "out", 2, 7⟩]
    ∧ claimed_select_rows [exInference] exFeedback "extract_entities" "exact_match" Cmp.ge
        1 JoinKey.inference 100 = [] := by
  constructor <;> decide

/-- C1 (amended): the Selector returns exactly the joined rows of the
function's inferences that have at least one feedback for the metric
passing the threshold; the joined value is the most recent (timestamp
descending, ties to the earlier row) among the PASSING feedback values,
not among all feedback values. The `LIMIT` clause is a plain prefix
truncation. -/
theorem c1_amended (inf : List InferenceRow) (fb : List FeedbackRow)
    (fname metric : String) (c : Cmp) (t : ℚ) (jk : JoinKey) (limit : ℕ)
    (r : SelectedRow) :
    select_rows inf fb fname metric c t jk limit =
      (select_rows_unlimited inf fb fname metric c t jk).take limit
    ∧ (r ∈ select_rows_unlimited inf fb fname metric c t jk ↔
        ∃ i ∈ inf, i.function_name = fname ∧
          ∃ f, IsFirstMax (passingFeedback fb metric c t (joinVal jk i)) f ∧
            f.metric_name = metric ∧ cmpHolds c f.value t = true ∧
            f.target_id = joinVal jk i ∧ r = mkSelected i f) := by
  refine ⟨rfl, ?_, ?_⟩
  · intro hr
    rw [select_rows_unlimited] at hr
    rcases List.mem_filterMap.mp hr with ⟨i, hi, hmap⟩
    rcases Option.map_eq_some'.mp hmap with ⟨f, hmr, hmk⟩
    rcases List.mem_filter.mp hi with ⟨hiinf, hbeq⟩
    have hf := (mostRecent_eq_some_iff _ _).mp hmr
    have hmem : f ∈ passingFeedback fb metric c t (joinVal jk i) := by
      rcases hf with ⟨l₁, l₂, heq, _, _⟩
      rw [heq]
      exact List.mem_append.mpr (Or.inr (List.mem_cons_self f l₂))
    rcases List.mem_filter.mp hmem with ⟨_, hprops⟩
    simp only [Bool.and_eq_true, beq_iff_eq] at hprops
    exact ⟨i, hiinf, by simpa using hbeq, f, hf, hprops.1.1, hprops.1.2, hprops.2, hmk.symm⟩
  · rintro ⟨i, hi, hfn, f, hmax, _, _, _, rfl⟩
    have hmr := (mostRecent_eq_some_iff _ _).mpr hmax
    rw [select_rows_unlimited]
    apply List.mem_filterMap.mpr
    exact ⟨i, List.mem_filter.mpr ⟨hi, by simp [hfn]⟩, by rw [hmr]; rfl⟩

/-- Modelled from the spec: `np.random.seed(42)` / `np.random.shuffle` is
an external seeded PRNG (the spec treats the shuffle as "deterministic
under a fixed seed"). The generator is modelled as a linear congruential
step; only determinism and the permutation property matter to the
pipeline. -/
def lcg (s : ℕ) : ℕ := (s * 1103515245 + 12345) % 4294967296

/-- Fisher-Yates-style draw loop for the modelled shuffle: repeatedly
draw an index from the generator and move that element to the output,
threading the generator state. `fuel` starts at the list length. -/
def shuffleGo {K : Type} : ℕ → ℕ → List K → List K × ℕ
  | 0, g, _ => ([], g)
  | fuel + 1, g, l =>
      if h : l.length = 0 then ([], g)
      else
        (l.get ⟨g % l.length, Nat.mod_lt _ (Nat.pos_of_ne_zero h)⟩ ::
            (shuffleGo fuel (lcg g) (l.eraseIdx (g % l.length))).1,
          (shuffleGo fuel (lcg g) (l.eraseIdx (g % l.length))).2)

/-- The modelled `np.random.shuffle` after `np.random.seed(g)`: returns
the shuffled list and the final generator state. -/
def npShuffle {K : Type} (g : ℕ) (l : List K) : List K × ℕ :=
  shuffleGo l.length g l

theorem shuffleGo_perm {K : Type} :
    ∀ (fuel g : ℕ) (l : List K), l.length ≤ fuel → ((shuffleGo fuel g l).1).Perm l := by
  intro fuel
  induction fuel with
  | zero =>
      intro g l h
      have : l = [] := List.eq_nil_of_length_eq_zero (Nat.le_zero.mp h)
      subst this
      simp [shuffleGo]
  | succ fuel ih =>
      intro g l h
      by_cases hl : l.length = 0
      · have : l = [] := List.eq_nil_of_length_eq_zero hl
        subst this
        simp [shuffleGo]
      · have hlt : g % l.length < l.length := Nat.mod_lt _ (Nat.pos_of_ne_zero hl)
        have hlen : (l.eraseIdx (g % l.length)).length ≤ fuel := by
          rw [List.length_eraseIdx]
          simp only [hlt, if_true]
          omega
        have h1 := ih (lcg g) (l.eraseIdx (g % l.length)) hlen
        have h2 : (l.get ⟨g % l.length, hlt⟩ :: l.eraseIdx (g % l.length)).Perm l := by
          rw [List.eraseIdx_eq_take_drop_succ]
          have hd : l.drop (g % l.length) =
              l.get ⟨g % l.length, hlt⟩ :: l.drop (g % l.length + 1) := by
            rw [List.get_eq_getElem]
            exact List.drop_eq_getElem_cons hlt
          have hsplit : l.take (g % l.length) ++
              l.get ⟨g % l.length, hlt⟩ :: l.drop (g % l.length + 1) = l := by
            rw [← hd]
            exact List.take_append_drop _ l
          have hp : (l.get ⟨g % l.length, hlt⟩ ::
              (l.take (g % l.length) ++ l.drop (g % l.length + 1))).Perm
              (l.take (g % l.length) ++
                l.get ⟨g % l.length, hlt⟩ :: l.drop (g % l.length + 1)) :=
            List.perm_middle.symm
          rw [hsplit] at hp
          exact hp
        rw [shuffleGo, dif_neg hl]
        exact (h1.cons _).trans h2

/-- First-occurrence deduplication with an explicit seen set, modelling
pandas `Series.unique` (distinct values in order of first appearance). -/
def uniqueFirstAux {K : Type} [DecidableEq K] : List K → List K → List K
  | _, [] => []
  | seen, k :: ks =>
      if k ∈ seen then uniqueFirstAux seen ks
      else k :: uniqueFirstAux (k :: seen) ks

/-- `df["episode_id"].unique()`: the distinct group keys in order of
first appearance. -/
def uniqueFirst {K : Type} [DecidableEq K] (l : List K) : List K :=
  uniqueFirstAux [] l

theorem uniqueFirstAux_not_mem_seen {K : Type} [DecidableEq K] :
    ∀ (l seen : List K) (k : K), k ∈ uniqueFirstAux seen l → k ∉ seen := by
  intro l
  induction l with
  | nil =>
      intro seen k hk
      simp [uniqueFirstAux] at hk
  | cons a as ih =>
      intro seen k hk
      by_cases ha : a ∈ seen
      · rw [uniqueFirstAux, if_pos ha] at hk
        exact ih seen k hk
      · rw [uniqueFirstAux, if_neg ha] at hk
        rcases List.mem_cons.mp hk with rfl | hk2
        · exact ha
        · have hnotin := ih (a :: seen) k hk2
          intro hks
          exact hnotin (List.mem_cons_of_mem a hks)

theorem uniqueFirstAux_nodup {K : Type} [DecidableEq K] :
    ∀ (l seen : List K), (uniqueFirstAux seen l).Nodup := by
  intro l
  induction l with
  | nil => intro seen; simp [uniqueFirstAux]
  | cons a as ih =>
      intro seen
      by_cases ha : a ∈ seen
      · rw [uniqueFirstAux, if_pos ha]
        exact ih seen
      · rw [uniqueFirstAux, if_neg ha]
        refine List.nodup_cons.mpr ⟨?_, ih (a :: seen)⟩
        intro hmem
        exact (uniqueFirstAux_not_mem_seen as (a :: seen) a hmem) (List.mem_cons_self a seen)

theorem uniqueFirst_nodup {K : Type} [DecidableEq K] (l : List K) :
    (uniqueFirst l).Nodup :=
  uniqueFirstAux_nodup l []

/-- `split_index = int(len(unique_episode_ids) * (1 - VAL_FRACTION))`:
Python `int()` truncates, which is the floor for the nonnegative product.
The float arithmetic of the source is modelled exactly over the
rationals. -/
def split_index (n : ℕ) (valFrac : ℚ) : ℕ :=
  (⌊(n : ℚ) * (1 - valFrac)⌋).toNat

/-- The split index as the claim states it: a ceiling instead of the
source's truncation. Written from the spec's words for comparison with
`split_index`. -/
def claimed_split_index (n : ℕ) (valFrac : ℚ) : ℕ :=
  (⌈(n : ℚ) * (1 - valFrac)⌉).toNat

/-- A row of the assembled dataframe at partitioning time: its episode
(group) key and its rendered messages. -/
structure ExampleRow (K : Type) where
  episode_id : K
  messages : List NormMessage
deriving DecidableEq

/-- The partitioning cell of the OpenAI notebook: take the distinct
episode ids, reset the global generator with `np.random.seed(42)`
(discarding the incoming state `g0`), shuffle, and split the shuffled ids
at `split_index` into train and validation id sets. Returns the final
generator state alongside the two id sets. -/
def partition_run {K : Type} [DecidableEq K] (rows : List (ExampleRow K)) (valFrac : ℚ)
    (g0 : ℕ) : (List K × List K) × ℕ :=
  let shuffled := npShuffle 42 (uniqueFirst (rows.map (fun r => r.episode_id)))
  ((shuffled.1.take (split_index shuffled.1.length valFrac),
    shuffled.1.drop (split_index shuffled.1.length valFrac)), shuffled.2)

/-- `train_episode_ids = unique_episode_ids[:split_index]`. -/
def train_episode_ids {K : Type} [DecidableEq K] (rows : List (ExampleRow K))
    (valFrac : ℚ) : List K :=
  ((partition_run rows valFrac 0).1).1

/-- `val_episode_ids = unique_episode_ids[split_index:]`. -/
def val_episode_ids {K : Type} [DecidableEq K] (rows : List (ExampleRow K))
    (valFrac : ℚ) : List K :=
  ((partition_run rows valFrac 0).1).2

/-- `train_df = df[df["episode_id"].isin(train_episode_ids)]`. -/
def train_df {K : Type} [DecidableEq K] (rows : List (ExampleRow K)) (valFrac : ℚ) :
    List (ExampleRow K) :=
  rows.filter (fun r => decide (r.episode_id ∈ train_episode_ids rows valFrac))

/-- `val_df = df[df["episode_id"].isin(val_episode_ids)]`. -/
def val_df {K : Type} [DecidableEq K] (rows : List (ExampleRow K)) (valFrac : ℚ) :
    List (ExampleRow K) :=
  rows.filter (fun r => decide (r.episode_id ∈ val_episode_ids rows valFrac))

theorem train_episode_ids_eq {K : Type} [DecidableEq K] (rows : List (ExampleRow K))
    (valFrac : ℚ) :
    train_episode_ids rows valFrac =
      ((npShuffle 42 (uniqueFirst (rows.map (fun r => r.episode_id)))).1).take
        (split_index ((npShuffle 42 (uniqueFirst (rows.map (fun r => r.episode_id)))).1).length
          valFrac) := rfl

theorem val_episode_ids_eq {K : Type} [DecidableEq K] (rows : List (ExampleRow K))
    (valFrac : ℚ) :
    val_episode_ids rows valFrac =
      ((npShuffle 42 (uniqueFirst (rows.map (fun r => r.episode_id)))).1).drop
        (split_index ((npShuffle 42 (uniqueFirst (rows.map (fun r => r.episode_id)))).1).length
          valFrac) := rfl

theorem shuffled_nodup {K : Type} [DecidableEq K] (rows : List (ExampleRow K)) :
    ((npShuffle 42 (uniqueFirst (rows.map (fun r => r.episode_id)))).1).Nodup := by
  have hperm := shuffleGo_perm (uniqueFirst (rows.map (fun r => r.episode_id))).length 42
    (uniqueFirst (rows.map (fun r => r.episode_id))) le_rfl
  exact hperm.symm.nodup (uniqueFirst_nodup _)

/-- A three-row dataset with distinct episode keys 0, 1, 2, used for the
partitioner's concrete instances. -/
def rows3 : List (ExampleRow ℕ) := [⟨0, []⟩, ⟨1, []⟩, ⟨2, []⟩]

theorem rows3_shuffled :
    (npShuffle 42 (uniqueFirst (rows3.map (fun r => r.episode_id)))).1 = [0, 2, 1] := by
  decide

theorem split_index_le (n : ℕ) (f : ℚ) (h0 : 0 ≤ f) : split_index n f ≤ n := by
  rw [split_index]
  have hle : ((n : ℚ) * (1 - f)) ≤ (n : ℚ) :=
    mul_le_of_le_one_right (Nat.cast_nonneg n) (by linarith)
  have h4 := Int.floor_le_floor hle
  rw [Int.floor_natCast] at h4
  exact Int.toNat_le.mpr h4

theorem rows3_train_zero : train_episode_ids rows3 0 = [0, 2, 1] := by
  rw [train_episode_ids_eq, rows3_shuffled]
  have h3 : ([0, 2, 1] : List ℕ).length = 3 := rfl
  rw [h3]
  have hsi : split_index 3 (0 : ℚ) = 3 := by
    rw [split_index]
    have h : ⌊((3 : ℕ) : ℚ) * (1 - 0)⌋ = 3 := by norm_num
    rw [h]
    rfl
  rw [hsi]
  rfl

/-- C5 counterexample: for three groups and `val_fraction = 1/2`, the
code's truncating `int(3 * 0.5) = 1` puts only the first shuffled key in
the training set, whereas the claimed ceiling `⌈3 * 0.5⌉ = 2` would take
the first two — so the training ids are not the first
`claimed_split_index` keys of the shuffled sequence. -/
theorem c5_counterexample :
    train_episode_ids rows3 (1/2) ≠
      ((npShuffle 42 (uniqueFirst (rows3.map (fun r => r.episode_id)))).1).take
        (claimed_split_index
          ((npShuffle 42 (uniqueFirst (rows3.map (fun r => r.episode_id)))).1).length
          (1/2)) := by
  have hsi : split_index 3 ((1 : ℚ)/2) = 1 := by
    rw [split_index]
    have h : ⌊((3 : ℕ) : ℚ) * (1 - 1/2)⌋ = 1 := by norm_num
    rw [h]
    rfl
  have hci : claimed_split_index 3 ((1 : ℚ)/2) = 2 := by
    rw [claimed_split_index]
    have h : ⌈((3 : ℕ) : ℚ) * (1 - 1/2)⌉ = 2 := by
      rw [Int.ceil_eq_iff]
      constructor
      · norm_num
      · norm_num
    rw [h]
    rfl
  rw [train_episode_ids_eq, rows3_shuffled]
  have h3 : ([0, 2, 1] : List ℕ).length = 3 := rfl
  rw [h3, hsi, hci]
  decide

/-- C5 (amended): for every input and every `val_fraction` in [0,1], the
Partitioner assigns exactly the first `⌊(1 - val_fraction) * |groups|⌋`
keys of the deterministically shuffled distinct-key sequence (the floor
produced by Python's `int(...)` truncation, not the claimed ceiling) to
the training set, and the remaining keys to the validation set. -/
theorem c5_floor_split {K : Type} [DecidableEq K] (rows : List (ExampleRow K)) (f : ℚ)
    (h0 : 0 ≤ f) (h1 : f ≤ 1) :
    (train_episode_ids rows f).length =
      split_index ((npShuffle 42 (uniqueFirst (rows.map (fun r => r.episode_id)))).1).length f
    ∧ train_episode_ids rows f ++ val_episode_ids rows f =
        (npShuffle 42 (uniqueFirst (rows.map (fun r => r.episode_id)))).1 := by
  constructor
  · rw [train_episode_ids_eq, List.length_take]
    exact Nat.min_eq_left (split_index_le _ f h0)
  · rw [train_episode_ids_eq, val_episode_ids_eq]
    exact List.take_append_drop _ _

/-- C5 witness: the amended split applied at three groups and
`val_fraction = 1/2`. -/
theorem c5_floor_split_witness :
    (0 : ℚ) ≤ 1/2 ∧ (1/2 : ℚ) ≤ 1
    ∧ ((train_episode_ids rows3 (1/2)).length =
        split_index
          ((npShuffle 42 (uniqueFirst (rows3.map (fun r => r.episode_id)))).1).length (1/2)
      ∧ train_episode_ids rows3 (1/2) ++ val_episode_ids rows3 (1/2) =
          (npShuffle 42 (uniqueFirst (rows3.map (fun r => r.episode_id)))).1) :=
  ⟨le_of_lt one_half_pos, le_of_lt one_half_lt_one,
    c5_floor_split rows3 (1/2) (le_of_lt one_half_pos) (le_of_lt one_half_lt_one)⟩

/-- C7: no group key is assigned to both splits (the shuffled distinct
keys are duplicate-free, and train/validation are a prefix and the
complementary suffix), and every example whose group key lies in a
split's key set appears in that split's dataframe. -/
theorem c7_no_group_leak {K : Type} [DecidableEq K] (rows : List (ExampleRow K)) (f : ℚ) :
    (∀ k : K, k ∈ train_episode_ids rows f → k ∉ val_episode_ids rows f)
    ∧ (∀ r ∈ rows, r.episode_id ∈ train_episode_ids rows f → r ∈ train_df rows f)
    ∧ (∀ r ∈ rows, r.episode_id ∈ val_episode_ids rows f → r ∈ val_df rows f) := by
  refine ⟨?_, ?_, ?_⟩
  · intro k hk1 hk2
    rw [train_episode_ids_eq] at hk1
    rw [val_episode_ids_eq] at hk2
    exact (List.disjoint_take_drop (shuffled_nodup rows) le_rfl) hk1 hk2
  · intro r hr hmem
    exact List.mem_filter.mpr ⟨hr, decide_eq_true hmem⟩
  · intro r hr hmem
    exact List.mem_filter.mpr ⟨hr, decide_eq_true hmem⟩

/-- C7 witness: at three groups and `val_fraction = 0`, key 0 is a
training key, hence not a validation key, and its example lands in the
training dataframe. -/
theorem c7_no_group_leak_witness :
    (0 ∈ train_episode_ids rows3 0) ∧ (0 ∉ val_episode_ids rows3 0)
    ∧ (⟨0, []⟩ : ExampleRow ℕ) ∈ rows3 ∧ (⟨0, []⟩ : ExampleRow ℕ) ∈ train_df rows3 0 :=
  ⟨by rw [rows3_train_zero]; simp,
    (c7_no_group_leak rows3 0).1 0 (by rw [rows3_train_zero]; simp),
    by simp [rows3],
    (c7_no_group_leak rows3 0).2.1 ⟨0, []⟩ (by simp [rows3])
      (by rw [rows3_train_zero]; simp)⟩

/-- C9: the partition is deterministic — because the run re-seeds the
generator (`np.random.seed(42)`) before shuffling, the resulting train
and validation key sets do not depend on the incoming generator state, so
two runs on identical input produce identical assignments. -/
theorem c9_seed_reset_deterministic {K : Type} [DecidableEq K]
    (rows : List (ExampleRow K)) (f : ℚ) (g g' : ℕ) :
    (partition_run rows f g).1 = (partition_run rows f g').1 := rfl
